import Mathlib

/-
Shallow embedding of the reconciliation engine of `lma-syndicate-bridge`
(the service file `runReconciliation` / `mapRuleToSAPCategory`, together with
the data model of `src/types.ts`).

Modelling choices:
* JavaScript numbers are modelled as exact rationals (`Rat`).
* JavaScript string operations (`toLowerCase`, `includes`, the regex
  match for digits followed by a percent sign, `parseInt`) are modelled as
  executable functions over `List Char`.
* The `Set` of used SAP ids is modelled as a `List String` with membership.
* Optional / nullable fields are `Option`; JavaScript falsy-default
  expressions (`x || d`) are modelled by explicit zero / empty-string tests.
* The sequence of `reconciliation.push` calls and the mutable running totals
  of the add-back loop are modelled by explicit state passing (`LoopState`)
  and a left fold over the rule list, preserving source order.
* The TypeScript field `section` is renamed `sectionLabel` (keyword clash);
  all other names follow the source. Fields of the input records that the
  engine never reads (deal metadata, facilities, sustainability KPIs, source
  quotes, the SAP source-type provenance tag) are omitted.
-/

/-- One character-list starts with another (exact character match). -/
def charsStartWith : List Char → List Char → Bool
  | _, [] => true
  | [], _ :: _ => false
  | c :: cs, n :: ns => c == n && charsStartWith cs ns

/-- Contiguous-substring test on character lists, mirroring
JavaScript `String.prototype.includes`. -/
def charsContain : List Char → List Char → Bool
  | [], needle => needle.isEmpty
  | c :: cs, needle => charsStartWith (c :: cs) needle || charsContain cs needle

/-- `strContains hay needle` mirrors `hay.includes(needle)`. -/
def strContains (hay needle : String) : Bool :=
  charsContain hay.toList needle.toList

/-- Character-wise ASCII lowercasing, mirroring `toLowerCase` on the
keyword alphabet the engine compares against (kernel-reducible form of
`String.toLower`, which maps `Char.toLower` over the characters). -/
def strToLower (s : String) : String :=
  String.mk (s.data.map Char.toLower)

/-- JavaScript `s || d` for strings: the empty string is falsy. -/
def strFalsyOr (s d : String) : String :=
  if s = "" then d else s

/-- JavaScript `x || d` for an optional string field. -/
def strOrElse (x : Option String) (d : String) : String :=
  match x with
  | some s => strFalsyOr s d
  | none => d

/-- JavaScript `x || d` for an optional numeric field: `null`, `undefined`
and `0` all fall back to the default. -/
def ratFalsyOr (x : Option Rat) (d : Rat) : Rat :=
  match x with
  | some v => if v = 0 then d else v
  | none => d

/-- Numeric value of a digit string, as `parseInt` computes it on an
all-digit input. -/
def digitsToNat (ds : List Char) : Nat :=
  ds.foldl (fun acc c => acc * 10 + (c.toNat - 48)) 0

/-- Mirrors the JavaScript regex match for `(\d+)%`: scan left to right,
tracking the current run of decimal digits; the first position where a
nonempty digit run is immediately followed by a percent sign yields that
run's numeric value (the regex's leftmost match with its greedy capture:
a shorter capture cannot be followed by the percent sign, and runs are
separated by non-digits, so leftmost match start and leftmost percent
position coincide). -/
def findPercentRun (run : List Char) : List Char → Option Nat
  | [] => none
  | c :: rest =>
    if c.isDigit then findPercentRun (run ++ [c]) rest
    else if c == '%' && !run.isEmpty then some (digitsToNat run)
    else findPercentRun [] rest

/-- `const capPercent = percentMatch ? parseInt(percentMatch[1]) : 20` —
the extracted percentage, defaulting to 20 when no digit run followed by a
percent sign occurs in the cap text. -/
def extractCapPercent (cap : String) : Nat :=
  match findPercentRun [] cap.toList with
  | some n => n
  | none => 20

/-- `SAPEntry` of `src/types.ts` (category is one of a fixed string
enumeration; the engine compares category strings directly). -/
structure SAPEntry where
  id : String
  accountCode : String
  accountName : String
  amount : Rat
  category : String
deriving DecidableEq, Repr

/-- `EBITDAAddBack` of `src/types.ts`. -/
structure EBITDAAddBack where
  item : String
  legalLogic : String
  sapMappingHint : Option String := none
  cap : Option String := none
deriving DecidableEq, Repr

/-- `FinancialCovenantRule` of `src/types.ts` (fields the engine reads). -/
structure FinancialCovenantRule where
  name : String
  maxLimit : Option Rat := none
  minLimit : Option Rat := none
deriving DecidableEq, Repr

/-- `covenantTrigger` of `CovenantRules` in `src/types.ts`. -/
structure CovenantTrigger where
  isSpringing : Bool
  triggerMetric : Option String := none
  thresholdPercentage : Option Rat := none
  totalRcfAmount : Option Rat := none
deriving DecidableEq, Repr

/-- `ebitdaRules` of `CovenantRules` in `src/types.ts`. -/
structure EbitdaRules where
  startingPoint : String
  permittedAddBacks : List EBITDAAddBack
  exclusions : Option (List String) := none
deriving DecidableEq, Repr

/-- `CovenantRules` of `src/types.ts` (fields the engine reads). -/
structure CovenantRules where
  financialCovenants : List FinancialCovenantRule
  ebitdaRules : EbitdaRules
  covenantTrigger : Option CovenantTrigger := none
deriving DecidableEq, Repr

/-- `ReconciliationItem` of `src/types.ts` (`section` renamed
`sectionLabel`). Optional boolean `isDeduction` is modelled as a `Bool`
that is `false` when the source omits the field. -/
structure ReconciliationItem where
  lmaItem : String
  sapSources : List SAPEntry
  rawAmount : Rat
  adjustmentReason : Option String := none
  isAddBack : Bool
  isDeduction : Bool := false
  cappedAmount : Option Rat := none
  finalAmount : Rat
  supportingQuote : Option String := none
  sectionLabel : Option String := none
deriving DecidableEq, Repr

/-- `FinancialHealth` of `src/types.ts`. -/
structure FinancialHealth where
  adjustedEBITDA : Rat
  netDebt : Rat
  netFinanceCharges : Rat
  cashAtBank : Rat
  grossDebt : Rat
  operatingProfit : Rat
  depreciation : Rat
  amortization : Rat
  restructuringCosts : Rat
  transactionCosts : Rat
  unrealizedFX : Rat
  interestExpense : Rat
deriving DecidableEq, Repr

/-- The closed status union of `HeadroomMetrics.status`. -/
inductive CovStatus where
  | Healthy
  | Warning
  | Breach
  | Skipped
deriving DecidableEq, Repr

/-- The `triggerDetails` record built for a springing covenant. -/
structure TriggerDetails where
  metricName : String
  currentValue : Rat
  threshold : Rat
  capacity : Rat
deriving DecidableEq, Repr

/-- `HeadroomMetrics` of `src/types.ts`. -/
structure HeadroomMetrics where
  leverageRatio : Rat
  leverageThreshold : Rat
  interestCoverageRatio : Rat
  interestThreshold : Rat
  status : CovStatus
  leverageHeadroom : Rat
  interestHeadroom : Rat
  testConditionActive : Bool
  triggerDetails : Option TriggerDetails := none
deriving DecidableEq, Repr

/-- The triple returned by `runReconciliation`. -/
structure ReconOutput where
  reconciliation : List ReconciliationItem
  health : FinancialHealth
  headroom : HeadroomMetrics
deriving DecidableEq, Repr

/-- `mapRuleToSAPCategory`: case-insensitive keyword dispatch from a
free-text rule name to SAP categories, with early return at the first
matching keyword family. -/
def mapRuleToSAPCategory (ruleName : String) : List String :=
  let lower := strToLower ruleName
  if strContains lower "depreciation" || strContains lower "amortization" ||
      strContains lower "impairment" then ["D&A"]
  else if strContains lower "transaction" || strContains lower "legal" ||
      strContains lower "professional" || strContains lower "acquisition" then ["Transaction"]
  else if strContains lower "restructuring" || strContains lower "redundancy" ||
      strContains lower "reorganization" || strContains lower "exceptional" then ["Restructuring"]
  else if strContains lower "fx" || strContains lower "exchange" then ["FX"]
  else []

/-- `rule.cap && (rule.cap.includes('%') || rule.cap.toLowerCase().includes('cap'))`. -/
def hasCapIndicator (cap : Option String) : Bool :=
  match cap with
  | some c => strContains c "%" || strContains (strToLower c) "cap"
  | none => false

/-- The unconsumed SAP entries whose category is targeted by a rule. -/
def matchingEntriesOf (sapData : List SAPEntry) (usedSapIds : List String)
    (rule : EBITDAAddBack) : List SAPEntry :=
  sapData.filter fun entry =>
    (mapRuleToSAPCategory rule.item).contains entry.category &&
      !(usedSapIds.contains entry.id)

/-- `rawAmount = matchingEntries.reduce((acc, curr) => acc + Math.abs(curr.amount), 0)`. -/
def rawAmountOf (matchingEntries : List SAPEntry) : Rat :=
  (matchingEntries.map fun e => |e.amount|).sum

/-- The `supportingQuote` ternary of the add-back bridge line. -/
def supportingQuoteOf (rule : EBITDAAddBack) : String :=
  match rule.sapMappingHint with
  | some hint =>
    if hint = "" then rule.legalLogic
    else rule.legalLogic ++ " (Hint: " ++ hint ++ ")"
  | none => rule.legalLogic

/-- The bridge line pushed for a fired add-back rule. -/
def addBackItem (rule : EBITDAAddBack) (sources : List SAPEntry)
    (rawAmount : Rat) (cappedAmount : Option Rat) (finalAmount : Rat)
    (adjustmentReason : String) : ReconciliationItem :=
  { lmaItem := "(+) " ++ rule.item
    sapSources := sources
    rawAmount := rawAmount
    isAddBack := true
    isDeduction := false
    cappedAmount := cappedAmount
    finalAmount := finalAmount
    adjustmentReason := some adjustmentReason
    supportingQuote := some (supportingQuoteOf rule)
    sectionLabel := some "EBITDA" }

/-- The mutable locals of the add-back loop, threaded explicitly. -/
structure LoopState where
  usedSapIds : List String
  reconciliation : List ReconciliationItem
  runningEBITDA : Rat
  depreciationTotal : Rat
  restructuringTotal : Rat
  transactionTotal : Rat
deriving DecidableEq, Repr

/-- One iteration of the `permittedAddBacks.forEach` loop. The
depreciation / transaction subtotals are bumped before the cap logic, so a
capped D&A rule includes its own raw amount in the cap base; the
restructuring subtotal receives `finalAmount` inside the cap branch
regardless of the rule's classified category, and otherwise only when the
rule classifies as Restructuring. -/
def processAddBack (sapData : List SAPEntry) (operatingProfit : Rat)
    (st : LoopState) (rule : EBITDAAddBack) : LoopState :=
  let targetCategories := mapRuleToSAPCategory rule.item
  let matchingEntries := matchingEntriesOf sapData st.usedSapIds rule
  if matchingEntries.isEmpty then st
  else
    let usedSapIds := st.usedSapIds ++ matchingEntries.map fun e => e.id
    let rawAmount := rawAmountOf matchingEntries
    let depreciationTotal :=
      if targetCategories.contains "D&A" then st.depreciationTotal + rawAmount
      else st.depreciationTotal
    let transactionTotal :=
      if targetCategories.contains "Transaction" then st.transactionTotal + rawAmount
      else st.transactionTotal
    if hasCapIndicator rule.cap then
      let capPercent := extractCapPercent (rule.cap.getD "")
      let maxAllowed := (operatingProfit + depreciationTotal) * ((capPercent : Rat) / 100)
      if rawAmount > maxAllowed then
        { usedSapIds := usedSapIds
          reconciliation := st.reconciliation ++
            [addBackItem rule matchingEntries rawAmount (some maxAllowed) maxAllowed
              ("Capped at " ++ toString capPercent ++ "% of Base")]
          runningEBITDA := st.runningEBITDA + maxAllowed
          depreciationTotal := depreciationTotal
          restructuringTotal := st.restructuringTotal + maxAllowed
          transactionTotal := transactionTotal }
      else
        { usedSapIds := usedSapIds
          reconciliation := st.reconciliation ++
            [addBackItem rule matchingEntries rawAmount none rawAmount
              "Permitted (Within Cap)"]
          runningEBITDA := st.runningEBITDA + rawAmount
          depreciationTotal := depreciationTotal
          restructuringTotal := st.restructuringTotal + rawAmount
          transactionTotal := transactionTotal }
    else
      { usedSapIds := usedSapIds
        reconciliation := st.reconciliation ++
          [addBackItem rule matchingEntries rawAmount none rawAmount rule.legalLogic]
        runningEBITDA := st.runningEBITDA + rawAmount
        depreciationTotal := depreciationTotal
        restructuringTotal :=
          if targetCategories.contains "Restructuring" then st.restructuringTotal + rawAmount
          else st.restructuringTotal
        transactionTotal := transactionTotal }

/-- Revenue entries of the ledger. -/
def revenueEntriesOf (sapData : List SAPEntry) : List SAPEntry :=
  sapData.filter fun i => i.category == "Revenue"

/-- OpEx entries of the ledger. -/
def opexEntriesOf (sapData : List SAPEntry) : List SAPEntry :=
  sapData.filter fun i => i.category == "OpEx"

/-- `operatingProfit = revenue - opex` with OpEx summed in absolute value. -/
def operatingProfitOf (sapData : List SAPEntry) : Rat :=
  ((revenueEntriesOf sapData).map fun e => e.amount).sum -
    ((opexEntriesOf sapData).map fun e => |e.amount|).sum

/-- The starting bridge line `A. <startingPoint>` of section 1.1. -/
def startingLine (sapData : List SAPEntry) (rules : CovenantRules) : ReconciliationItem :=
  { lmaItem := "A. " ++ strFalsyOr rules.ebitdaRules.startingPoint "Operating Profit"
    sapSources := revenueEntriesOf sapData ++ opexEntriesOf sapData
    rawAmount := operatingProfitOf sapData
    isAddBack := false
    finalAmount := operatingProfitOf sapData
    supportingQuote := none
    sectionLabel := some "EBITDA" }

/-- State at the end of section 1.1: Revenue / OpEx ids consumed, the
starting line emitted, all running totals initialised. -/
def baselineState (sapData : List SAPEntry) (rules : CovenantRules) : LoopState :=
  { usedSapIds := (revenueEntriesOf sapData).map (fun e => e.id) ++
      (opexEntriesOf sapData).map (fun e => e.id)
    reconciliation := [startingLine sapData rules]
    runningEBITDA := operatingProfitOf sapData
    depreciationTotal := 0
    restructuringTotal := 0
    transactionTotal := 0 }

/-- State after the whole `permittedAddBacks` loop (section 1.2). -/
def stAfterAddBacks (sapData : List SAPEntry) (rules : CovenantRules) : LoopState :=
  rules.ebitdaRules.permittedAddBacks.foldl
    (processAddBack sapData (operatingProfitOf sapData))
    (baselineState sapData rules)

/-- `exclusions?.some(ex => ex.toLowerCase().includes('fx') || ...includes('exchange'))`. -/
def hasFXExclusionOf (rules : CovenantRules) : Bool :=
  match rules.ebitdaRules.exclusions with
  | some exs => exs.any fun ex =>
      strContains (strToLower ex) "fx" || strContains (strToLower ex) "exchange"
  | none => false

/-- Unconsumed FX-category entries at the FX-exclusion step. -/
def fxEntriesOf (sapData : List SAPEntry) (st : LoopState) : List SAPEntry :=
  sapData.filter fun i => i.category == "FX" && !(st.usedSapIds.contains i.id)

/-- The deduction line emitted for a net unrealized FX gain. -/
def fxGainLine (fxEntries : List SAPEntry) (netFX : Rat) : ReconciliationItem :=
  { lmaItem := "(-) Unrealized FX Gain"
    sapSources := fxEntries
    rawAmount := netFX
    isAddBack := false
    isDeduction := true
    finalAmount := -netFX
    adjustmentReason := some "Excluded Gain"
    sectionLabel := some "EBITDA" }

/-- Section 1.3 (FX exclusion). Returns the new state together with the
`fxAdjustmentTotal`. The FX ids are consumed as soon as any unconsumed FX
entry exists; the deduction line, EBITDA adjustment and subtotal happen
only for a strictly positive net FX gain. -/
def fxStep (sapData : List SAPEntry) (hasFXExclusion : Bool) (st : LoopState) :
    LoopState × Rat :=
  if hasFXExclusion then
    let fxEntries := fxEntriesOf sapData st
    if fxEntries.isEmpty then (st, 0)
    else
      let st1 := { st with usedSapIds := st.usedSapIds ++ fxEntries.map fun e => e.id }
      let netFX := (fxEntries.map fun e => e.amount).sum
      if netFX > 0 then
        ({ st1 with
            reconciliation := st1.reconciliation ++ [fxGainLine fxEntries netFX]
            runningEBITDA := st1.runningEBITDA - netFX }, netFX)
      else (st1, 0)
  else (st, 0)

/-- Result of the FX step applied after the add-back loop. -/
def fxResult (sapData : List SAPEntry) (rules : CovenantRules) : LoopState × Rat :=
  fxStep sapData (hasFXExclusionOf rules) (stAfterAddBacks sapData rules)

/-- `adjustedEBITDA` — the running EBITDA after all add-backs and FX. -/
def adjustedEBITDAOf (sapData : List SAPEntry) (rules : CovenantRules) : Rat :=
  (fxResult sapData rules).1.runningEBITDA

/-- Interest-expense entries (section 2, no consumption check). -/
def interestExpEntriesOf (sapData : List SAPEntry) : List SAPEntry :=
  sapData.filter fun i => i.category == "Interest Expense"

/-- `interestExpense` — absolute sum over interest-expense entries. -/
def interestExpenseOf (sapData : List SAPEntry) : Rat :=
  ((interestExpEntriesOf sapData).map fun e => |e.amount|).sum

/-- Interest-income entries (section 2). -/
def interestIncEntriesOf (sapData : List SAPEntry) : List SAPEntry :=
  sapData.filter fun i => i.category == "Interest Income"

/-- `interestIncome` — absolute sum over interest-income entries. -/
def interestIncomeOf (sapData : List SAPEntry) : Rat :=
  ((interestIncEntriesOf sapData).map fun e => |e.amount|).sum

/-- `netFinanceCharges = interestExpense - interestIncome`. -/
def netFinanceChargesOf (sapData : List SAPEntry) : Rat :=
  interestExpenseOf sapData - interestIncomeOf sapData

/-- Gross-debt entries (section 3). -/
def grossDebtEntriesOf (sapData : List SAPEntry) : List SAPEntry :=
  sapData.filter fun i => i.category == "Gross Debt"

/-- Lease entries (section 3). -/
def leaseEntriesOf (sapData : List SAPEntry) : List SAPEntry :=
  sapData.filter fun i => i.category == "Leases"

/-- `debtTotal` — signed sum over gross debt plus leases. -/
def debtTotalOf (sapData : List SAPEntry) : Rat :=
  ((grossDebtEntriesOf sapData).map fun e => e.amount).sum +
    ((leaseEntriesOf sapData).map fun e => e.amount).sum

/-- Cash entries (section 3). -/
def cashEntriesOf (sapData : List SAPEntry) : List SAPEntry :=
  sapData.filter fun i => i.category == "Cash"

/-- `cashTotal` — signed sum over cash entries. -/
def cashTotalOf (sapData : List SAPEntry) : Rat :=
  ((cashEntriesOf sapData).map fun e => e.amount).sum

/-- `netDebt = debtTotal - cashTotal`. -/
def netDebtOf (sapData : List SAPEntry) : Rat :=
  debtTotalOf sapData - cashTotalOf sapData

/-- Bridge line `B. Finance Costs`. -/
def financeCostsLine (sapData : List SAPEntry) : ReconciliationItem :=
  { lmaItem := "B. Finance Costs"
    sapSources := interestExpEntriesOf sapData
    rawAmount := interestExpenseOf sapData
    isAddBack := false
    finalAmount := interestExpenseOf sapData
    sectionLabel := some "FINANCE_CHARGES" }

/-- Bridge line `(-) Finance Income`. -/
def financeIncomeLine (sapData : List SAPEntry) : ReconciliationItem :=
  { lmaItem := "(-) Finance Income"
    sapSources := interestIncEntriesOf sapData
    rawAmount := interestIncomeOf sapData
    isAddBack := false
    isDeduction := true
    finalAmount := -interestIncomeOf sapData
    sectionLabel := some "FINANCE_CHARGES" }

/-- Bridge line `A. Gross Borrowings`. -/
def grossBorrowingsLine (sapData : List SAPEntry) : ReconciliationItem :=
  { lmaItem := "A. Gross Borrowings"
    sapSources := grossDebtEntriesOf sapData ++ leaseEntriesOf sapData
    rawAmount := debtTotalOf sapData
    isAddBack := false
    finalAmount := debtTotalOf sapData
    sectionLabel := some "NET_DEBT" }

/-- Bridge line `(-) Cash & Cash Equivalents`. -/
def cashLine (sapData : List SAPEntry) : ReconciliationItem :=
  { lmaItem := "(-) Cash & Cash Equivalents"
    sapSources := cashEntriesOf sapData
    rawAmount := cashTotalOf sapData
    isAddBack := false
    isDeduction := true
    finalAmount := -cashTotalOf sapData
    sectionLabel := some "NET_DEBT" }

/-- The leverage covenant rule: first covenant whose non-empty name
contains "leverage" case-insensitively. -/
def levRuleOf (rules : CovenantRules) : Option FinancialCovenantRule :=
  rules.financialCovenants.find? fun c =>
    !(c.name == "") && strContains (strToLower c.name) "leverage"

/-- The interest covenant rule: first covenant whose non-empty name
contains "interest" case-insensitively. -/
def intRuleOf (rules : CovenantRules) : Option FinancialCovenantRule :=
  rules.financialCovenants.find? fun c =>
    !(c.name == "") && strContains (strToLower c.name) "interest"

/-- `levMax = levRule?.maxLimit || 4.0`. -/
def levMaxOf (rules : CovenantRules) : Rat :=
  ratFalsyOr ((levRuleOf rules).bind fun c => c.maxLimit) 4

/-- `intMin = intRule?.minLimit || 0`. -/
def intMinOf (rules : CovenantRules) : Rat :=
  ratFalsyOr ((intRuleOf rules).bind fun c => c.minLimit) 0

/-- `leverageRatio = adjustedEBITDA !== 0 ? netDebt / adjustedEBITDA : 0`. -/
def leverageRatioOf (sapData : List SAPEntry) (rules : CovenantRules) : Rat :=
  if adjustedEBITDAOf sapData rules ≠ 0 then
    netDebtOf sapData / adjustedEBITDAOf sapData rules
  else 0

/-- `interestCoverageRatio = netFinanceCharges !== 0 ? adjustedEBITDA / netFinanceCharges : 0`. -/
def interestCoverageRatioOf (sapData : List SAPEntry) (rules : CovenantRules) : Rat :=
  if netFinanceChargesOf sapData ≠ 0 then
    adjustedEBITDAOf sapData rules / netFinanceChargesOf sapData
  else 0

/-- RCF utilization of the springing-trigger block: drawdown of the first
gross-debt entry whose account name contains "rcf" or "revolving",
divided by the (falsy-defaulted) total RCF capacity, or 0 when the
capacity is not positive. -/
def rcfUtilization (grossDebtEntries : List SAPEntry) (trig : CovenantTrigger) : Rat :=
  let totalRcfCapacity := ratFalsyOr trig.totalRcfAmount 0
  let rcfEntry := grossDebtEntries.find? fun i =>
    strContains (strToLower i.accountName) "rcf" || strContains (strToLower i.accountName) "revolving"
  let rcfDrawdown := match rcfEntry with
    | some e => e.amount
    | none => 0
  if totalRcfCapacity > 0 then rcfDrawdown / totalRcfCapacity else 0

/-- `threshold = trigger.thresholdPercentage || 0.40`. -/
def springThreshold (trig : CovenantTrigger) : Rat :=
  ratFalsyOr trig.thresholdPercentage (2 / 5)

/-- The springing-trigger block: returns `testConditionActive` and the
optional `triggerDetails`. Absent trigger, or a trigger that is not
springing, leaves the test active with no details. -/
def resolveSpringing (grossDebtEntries : List SAPEntry)
    (trigger : Option CovenantTrigger) : Bool × Option TriggerDetails :=
  match trigger with
  | some trig =>
    if trig.isSpringing then
      let utilization := rcfUtilization grossDebtEntries trig
      let threshold := springThreshold trig
      (decide (utilization > threshold),
        some { metricName := strOrElse trig.triggerMetric "RCF Drawings / Total RCF Commitments"
               currentValue := utilization
               threshold := threshold
               capacity := ratFalsyOr trig.totalRcfAmount 0 })
    else (true, none)
  | none => (true, none)

/-- The springing-trigger computation of the engine on its inputs. -/
def springingOf (sapData : List SAPEntry) (rules : CovenantRules) :
    Bool × Option TriggerDetails :=
  resolveSpringing (grossDebtEntriesOf sapData) rules.covenantTrigger

/-- The status state machine: leverage first, then interest, the interest
block guarded by `status !== 'Breach'` and its warning branch additionally
by `status !== 'Warning'`. -/
def determineStatus (testConditionActive : Bool) (leverageRatio levMax
    interestCoverageRatio intMin : Rat) : CovStatus :=
  if !testConditionActive then CovStatus.Skipped
  else
    let status :=
      if leverageRatio > levMax then CovStatus.Breach
      else if leverageRatio > levMax * (9 / 10) then CovStatus.Warning
      else CovStatus.Healthy
    if status ≠ CovStatus.Breach then
      if interestCoverageRatio < intMin then CovStatus.Breach
      else if interestCoverageRatio < intMin * (11 / 10) ∧ status ≠ CovStatus.Warning then
        CovStatus.Warning
      else status
    else status

/-- The status computed by the engine on its inputs. -/
def statusOf (sapData : List SAPEntry) (rules : CovenantRules) : CovStatus :=
  determineStatus (springingOf sapData rules).1 (leverageRatioOf sapData rules)
    (levMaxOf rules) (interestCoverageRatioOf sapData rules) (intMinOf rules)

/-- `runReconciliation` — the whole engine, assembled from the pieces
above in source order. -/
def runReconciliation (sapData : List SAPEntry) (rules : CovenantRules) : ReconOutput :=
  { reconciliation := (fxResult sapData rules).1.reconciliation ++
      [financeCostsLine sapData, financeIncomeLine sapData,
        grossBorrowingsLine sapData, cashLine sapData]
    health :=
      { adjustedEBITDA := adjustedEBITDAOf sapData rules
        netDebt := netDebtOf sapData
        netFinanceCharges := netFinanceChargesOf sapData
        grossDebt := debtTotalOf sapData
        cashAtBank := cashTotalOf sapData
        operatingProfit := operatingProfitOf sapData
        depreciation := (fxResult sapData rules).1.depreciationTotal
        amortization := 0
        restructuringCosts := (fxResult sapData rules).1.restructuringTotal
        transactionCosts := (fxResult sapData rules).1.transactionTotal
        unrealizedFX := (fxResult sapData rules).2
        interestExpense := interestExpenseOf sapData }
    headroom :=
      { leverageRatio := leverageRatioOf sapData rules
        leverageThreshold := levMaxOf rules
        interestCoverageRatio := interestCoverageRatioOf sapData rules
        interestThreshold := intMinOf rules
        status := statusOf sapData rules
        leverageHeadroom := levMaxOf rules - leverageRatioOf sapData rules
        interestHeadroom := interestCoverageRatioOf sapData rules - intMinOf rules
        testConditionActive := (springingOf sapData rules).1
        triggerDetails := (springingOf sapData rules).2 } }

/-- Projection: the bridge line list of the engine output. -/
theorem run_reconciliation_eq (sapData : List SAPEntry) (rules : CovenantRules) :
    (runReconciliation sapData rules).reconciliation =
      (fxResult sapData rules).1.reconciliation ++
        [financeCostsLine sapData, financeIncomeLine sapData,
          grossBorrowingsLine sapData, cashLine sapData] := rfl

/-- Projection: adjusted EBITDA of the health snapshot. -/
theorem run_health_adjustedEBITDA (sapData : List SAPEntry) (rules : CovenantRules) :
    (runReconciliation sapData rules).health.adjustedEBITDA = adjustedEBITDAOf sapData rules := rfl

/-- Projection: net finance charges of the health snapshot. -/
theorem run_health_netFinanceCharges (sapData : List SAPEntry) (rules : CovenantRules) :
    (runReconciliation sapData rules).health.netFinanceCharges = netFinanceChargesOf sapData := rfl

/-- Projection: restructuring subtotal of the health snapshot. -/
theorem run_health_restructuringCosts (sapData : List SAPEntry) (rules : CovenantRules) :
    (runReconciliation sapData rules).health.restructuringCosts =
      (fxResult sapData rules).1.restructuringTotal := rfl

/-- Projection: unrealized FX subtotal of the health snapshot. -/
theorem run_health_unrealizedFX (sapData : List SAPEntry) (rules : CovenantRules) :
    (runReconciliation sapData rules).health.unrealizedFX = (fxResult sapData rules).2 := rfl

/-- Projection: leverage ratio of the headroom snapshot. -/
theorem run_headroom_leverageRatio (sapData : List SAPEntry) (rules : CovenantRules) :
    (runReconciliation sapData rules).headroom.leverageRatio = leverageRatioOf sapData rules := rfl

/-- Projection: leverage threshold of the headroom snapshot. -/
theorem run_headroom_leverageThreshold (sapData : List SAPEntry) (rules : CovenantRules) :
    (runReconciliation sapData rules).headroom.leverageThreshold = levMaxOf rules := rfl

/-- Projection: interest coverage ratio of the headroom snapshot. -/
theorem run_headroom_interestCoverageRatio (sapData : List SAPEntry) (rules : CovenantRules) :
    (runReconciliation sapData rules).headroom.interestCoverageRatio =
      interestCoverageRatioOf sapData rules := rfl

/-- Projection: interest threshold of the headroom snapshot. -/
theorem run_headroom_interestThreshold (sapData : List SAPEntry) (rules : CovenantRules) :
    (runReconciliation sapData rules).headroom.interestThreshold = intMinOf rules := rfl

/-- Projection: status of the headroom snapshot. -/
theorem run_headroom_status (sapData : List SAPEntry) (rules : CovenantRules) :
    (runReconciliation sapData rules).headroom.status = statusOf sapData rules := rfl

/-- Projection: test-condition flag of the headroom snapshot. -/
theorem run_headroom_testConditionActive (sapData : List SAPEntry) (rules : CovenantRules) :
    (runReconciliation sapData rules).headroom.testConditionActive =
      (springingOf sapData rules).1 := rfl

/-- Projection: trigger details of the headroom snapshot. -/
theorem run_headroom_triggerDetails (sapData : List SAPEntry) (rules : CovenantRules) :
    (runReconciliation sapData rules).headroom.triggerDetails =
      (springingOf sapData rules).2 := rfl

/-- A sum of absolute values is nonnegative. -/
theorem rawAmountOf_nonneg (entries : List SAPEntry) : 0 ≤ rawAmountOf entries := by
  unfold rawAmountOf
  apply List.sum_nonneg
  intro x hx
  simp only [List.mem_map] at hx
  obtain ⟨e, _, rfl⟩ := hx
  exact abs_nonneg _

/-- C7: the ratio computations use defined zero fallbacks: a zero adjusted
EBITDA forces a zero leverage ratio, and zero net finance charges force a
zero interest coverage ratio, for every input. -/
theorem divisionSafety (sapData : List SAPEntry) (rules : CovenantRules) :
    ((runReconciliation sapData rules).health.adjustedEBITDA = 0 →
      (runReconciliation sapData rules).headroom.leverageRatio = 0) ∧
    ((runReconciliation sapData rules).health.netFinanceCharges = 0 →
      (runReconciliation sapData rules).headroom.interestCoverageRatio = 0) := by
  constructor
  · intro h
    rw [run_health_adjustedEBITDA] at h
    rw [run_headroom_leverageRatio]
    unfold leverageRatioOf
    simp [h]
  · intro h
    rw [run_health_netFinanceCharges] at h
    rw [run_headroom_interestCoverageRatio]
    unfold interestCoverageRatioOf
    simp [h]

/-- Rules value with no covenants, no add-backs and no trigger. -/
def emptyRules : CovenantRules :=
  { financialCovenants := []
    ebitdaRules := { startingPoint := "", permittedAddBacks := [] } }

/-- Witness for C7 at the empty ledger: both fallbacks fire. -/
theorem divisionSafety_witness :
    (runReconciliation [] emptyRules).headroom.leverageRatio = 0 ∧
    (runReconciliation [] emptyRules).headroom.interestCoverageRatio = 0 :=
  ⟨(divisionSafety [] emptyRules).1
      (by simp [run_health_adjustedEBITDA, adjustedEBITDAOf, fxResult, fxStep,
        hasFXExclusionOf, emptyRules, stAfterAddBacks, baselineState, operatingProfitOf,
        revenueEntriesOf, opexEntriesOf]),
   (divisionSafety [] emptyRules).2
      (by simp [run_health_netFinanceCharges, netFinanceChargesOf, interestExpenseOf,
        interestIncomeOf, interestExpEntriesOf, interestIncEntriesOf])⟩

/-- A keyword family matches when any of its keywords occurs in the
lowercased rule name. -/
def famMatches (ruleName : String) (keywords : List String) : Bool :=
  keywords.any fun kw => strContains (strToLower ruleName) kw

/-- The keyword table of the category classifier, in source order. -/
def keywordTable : List (List String × String) :=
  [(["depreciation", "amortization", "impairment"], "D&A"),
   (["transaction", "legal", "professional", "acquisition"], "Transaction"),
   (["restructuring", "redundancy", "reorganization", "exceptional"], "Restructuring"),
   (["fx", "exchange"], "FX")]

/-- First matching family of a keyword table, in table order. -/
def firstMatching (ruleName : String) : List (List String × String) → List String
  | [] => []
  | fam :: rest =>
    if famMatches ruleName fam.1 then [fam.2] else firstMatching ruleName rest

/-- Reference classifier stated from the amended spec words: the single
category of the first keyword family (in table order) with a matching
keyword, and the empty set when no keyword matches — never a union of
several families. -/
def classifyFirstMatch (ruleName : String) : List String :=
  firstMatching ruleName keywordTable

/-- C1 (amended): the category classifier maps a rule name by
case-insensitive substring match against the fixed keyword table,
returning the empty set when no keyword matches; when keywords of more
than one family match, the first family in table order wins and the
result is that single category, not the union. -/
theorem mapRuleFirstFamily (ruleName : String) :
    mapRuleToSAPCategory ruleName = classifyFirstMatch ruleName := by
  simp only [mapRuleToSAPCategory, classifyFirstMatch, keywordTable, firstMatching, famMatches,
    List.any_cons, List.any_nil, Bool.or_false, Bool.or_assoc]

/-- C1 counterexample: "Legal Restructuring Costs" contains keywords of
both the Transaction family ("legal") and the Restructuring family
("restructuring"), yet the classifier returns only `["Transaction"]` —
not the union of both categories the claim requires. -/
theorem mapRuleFirstFamily_cex :
    strContains (strToLower "Legal Restructuring Costs") "legal" = true ∧
    strContains (strToLower "Legal Restructuring Costs") "restructuring" = true ∧
    mapRuleToSAPCategory "Legal Restructuring Costs" = ["Transaction"] ∧
    "Restructuring" ∉ mapRuleToSAPCategory "Legal Restructuring Costs" := by
  decide

/-- C4: for a fired add-back rule whose cap text contains a percent sign or
the word "cap", the emitted bridge line is capped to
`maxAllowed = (operatingProfit + depreciation total after this rule's own
D&A bump) * pct / 100`: above the cap `finalAmount = maxAllowed` with
`cappedAmount` set to `maxAllowed`, otherwise `finalAmount = rawAmount`
with `cappedAmount` unset. -/
theorem capCorrectness (sapData : List SAPEntry) (operatingProfit : Rat)
    (st : LoopState) (rule : EBITDAAddBack) (m : List SAPEntry) (raw maxAllowed : Rat)
    (hm : m = matchingEntriesOf sapData st.usedSapIds rule)
    (hne : m.isEmpty = false)
    (hcap : hasCapIndicator rule.cap = true)
    (hraw : raw = rawAmountOf m)
    (hmax : maxAllowed = (operatingProfit +
        (if (mapRuleToSAPCategory rule.item).contains "D&A" then st.depreciationTotal + raw
         else st.depreciationTotal)) * ((extractCapPercent (rule.cap.getD "") : Rat) / 100)) :
    (processAddBack sapData operatingProfit st rule).reconciliation =
      st.reconciliation ++
        [if raw > maxAllowed then
            addBackItem rule m raw (some maxAllowed) maxAllowed
              ("Capped at " ++ toString (extractCapPercent (rule.cap.getD "")) ++ "% of Base")
          else
            addBackItem rule m raw none raw "Permitted (Within Cap)"] := by
  subst hm
  subst hraw
  subst hmax
  unfold processAddBack
  simp only [hne, hcap, Bool.false_eq_true, if_false, if_true]
  split <;> split <;> rfl

/-- Ledger input of the C4 witness: one restructuring entry of 10. -/
def w4sap : List SAPEntry :=
  [{ id := "r1", accountCode := "7000", accountName := "Severance", amount := 10,
     category := "Restructuring" }]

/-- Fresh loop state used by the step-level witnesses. -/
def w4st : LoopState :=
  { usedSapIds := [], reconciliation := [], runningEBITDA := 0,
    depreciationTotal := 0, restructuringTotal := 0, transactionTotal := 0 }

/-- Capped add-back rule of the C4 witness. -/
def w4rule : EBITDAAddBack :=
  { item := "Restructuring costs", legalLogic := "permitted", cap := some "15%" }

/-- Matching entries of the C4 witness. -/
def w4m : List SAPEntry :=
  [{ id := "r1", accountCode := "7000", accountName := "Severance", amount := 10,
     category := "Restructuring" }]

/-- Witness for C4: raw 10 against cap 15 percent of base 100 stays
uncapped with `cappedAmount` unset. -/
theorem capCorrectness_witness :
    (processAddBack w4sap 100 w4st w4rule).reconciliation =
      [addBackItem w4rule w4m 10 none 10 "Permitted (Within Cap)"] := by
  have h := capCorrectness w4sap 100 w4st w4rule w4m 10 15
    (by decide) (by decide) (by decide)
    (by norm_num [rawAmountOf, w4m])
    (by
      have h1 : extractCapPercent (w4rule.cap.getD "") = 15 := by decide
      have h2 : (mapRuleToSAPCategory w4rule.item).contains "D&A" = false := by decide
      rw [h1, h2]
      norm_num [w4st])
  rw [if_neg (by norm_num)] at h
  simpa [w4st] using h

/-- The FX exclusion step never touches the restructuring subtotal. -/
theorem fxStep_fst_restructuringTotal (sapData : List SAPEntry) (b : Bool) (st : LoopState) :
    ((fxStep sapData b st).1).restructuringTotal = st.restructuringTotal := by
  unfold fxStep
  dsimp only
  repeat' split
  all_goals rfl

/-- C10: the engine's restructuring subtotal is the loop's running
restructuring total, and a fired rule with cap text adds its final
(possibly capped) amount to that total regardless of its classified
category, while a cap-less fired rule adds its raw amount only when
classified as Restructuring; the depreciation and transaction subtotals
receive the raw amount exactly when the rule classifies to them. -/
theorem capRestructuringSubtotal (sapData : List SAPEntry) (rules : CovenantRules)
    (operatingProfit : Rat) (st : LoopState) (rule : EBITDAAddBack)
    (m : List SAPEntry) (raw maxAllowed : Rat)
    (hm : m = matchingEntriesOf sapData st.usedSapIds rule)
    (hne : m.isEmpty = false)
    (hraw : raw = rawAmountOf m)
    (hmax : maxAllowed = (operatingProfit +
        (if (mapRuleToSAPCategory rule.item).contains "D&A" then st.depreciationTotal + raw
         else st.depreciationTotal)) * ((extractCapPercent (rule.cap.getD "") : Rat) / 100)) :
    (runReconciliation sapData rules).health.restructuringCosts =
      (stAfterAddBacks sapData rules).restructuringTotal ∧
    (hasCapIndicator rule.cap = true →
      (processAddBack sapData operatingProfit st rule).restructuringTotal =
        st.restructuringTotal + (if raw > maxAllowed then maxAllowed else raw)) ∧
    (hasCapIndicator rule.cap = false →
      (processAddBack sapData operatingProfit st rule).restructuringTotal =
        (if (mapRuleToSAPCategory rule.item).contains "Restructuring" then
          st.restructuringTotal + raw else st.restructuringTotal)) ∧
    (processAddBack sapData operatingProfit st rule).depreciationTotal =
      (if (mapRuleToSAPCategory rule.item).contains "D&A" then st.depreciationTotal + raw
       else st.depreciationTotal) ∧
    (processAddBack sapData operatingProfit st rule).transactionTotal =
      (if (mapRuleToSAPCategory rule.item).contains "Transaction" then st.transactionTotal + raw
       else st.transactionTotal) := by
  subst hm
  subst hraw
  subst hmax
  refine ⟨?_, ?_, ?_, ?_, ?_⟩
  · rw [run_health_restructuringCosts]
    unfold fxResult
    exact fxStep_fst_restructuringTotal sapData (hasFXExclusionOf rules) (stAfterAddBacks sapData rules)
  · intro hcap
    unfold processAddBack
    simp only [hne, hcap, Bool.false_eq_true, if_false, if_true]
    split <;> split <;> rfl
  · intro hcap
    unfold processAddBack
    simp only [hne, hcap, Bool.false_eq_true, if_false, if_true]
  · unfold processAddBack
    simp only [hne, Bool.false_eq_true, if_false]
    repeat' split
    all_goals rfl
  · unfold processAddBack
    simp only [hne, Bool.false_eq_true, if_false]
    repeat' split
    all_goals rfl

/-- Ledger input of the C10 witness: one depreciation entry of 30. -/
def w10sap : List SAPEntry :=
  [{ id := "d1", accountCode := "6000", accountName := "Depreciation charge", amount := 30,
     category := "D&A" }]

/-- D&A-classified rule with cap text, for the C10 witness. -/
def w10rule : EBITDAAddBack :=
  { item := "Depreciation and amortization", legalLogic := "p", cap := some "50%" }

/-- Matching entries of the C10 witness. -/
def w10m : List SAPEntry :=
  [{ id := "d1", accountCode := "6000", accountName := "Depreciation charge", amount := 30,
     category := "D&A" }]

/-- Witness for C10: a D&A-classified rule with cap text bumps both the
restructuring subtotal (by its final amount) and the depreciation
subtotal (by its raw amount). -/
theorem capRestructuringSubtotal_witness :
    (processAddBack w10sap 100 w4st w10rule).restructuringTotal = 30 ∧
    (processAddBack w10sap 100 w4st w10rule).depreciationTotal = 30 := by
  have h := capRestructuringSubtotal w10sap emptyRules 100 w4st w10rule w10m 30 65
    (by decide) (by decide)
    (by norm_num [rawAmountOf, w10m])
    (by
      have h1 : extractCapPercent (w10rule.cap.getD "") = 50 := by decide
      have h2 : (mapRuleToSAPCategory w10rule.item).contains "D&A" = true := by decide
      rw [h1, h2]
      norm_num [w4st])
  obtain ⟨h1, h2, h3, h4, h5⟩ := h
  constructor
  · have hc := h2 (by decide)
    rw [if_neg (by norm_num)] at hc
    simpa [w4st] using hc
  · have hd : (mapRuleToSAPCategory w10rule.item).contains "D&A" = true := by decide
    rw [hd] at h4
    simpa [w4st] using h4

/-- C3: status resolution is first-setter-wins with leverage evaluated
before interest cover — when the test condition is active, a leverage
ratio above the maximum always yields Breach no matter what the interest
coverage ratio is, and a Warning from the leverage band (above 90 percent
of the maximum but not above it) survives the interest branch whenever the
interest ratio is not itself a breach. -/
theorem statusOrdering (sapData : List SAPEntry) (rules : CovenantRules)
    (hact : (runReconciliation sapData rules).headroom.testConditionActive = true) :
    ((runReconciliation sapData rules).headroom.leverageRatio >
        (runReconciliation sapData rules).headroom.leverageThreshold →
      (runReconciliation sapData rules).headroom.status = CovStatus.Breach) ∧
    ((runReconciliation sapData rules).headroom.leverageRatio >
        (runReconciliation sapData rules).headroom.leverageThreshold * (9 / 10) →
      ¬((runReconciliation sapData rules).headroom.leverageRatio >
        (runReconciliation sapData rules).headroom.leverageThreshold) →
      ¬((runReconciliation sapData rules).headroom.interestCoverageRatio <
        (runReconciliation sapData rules).headroom.interestThreshold) →
      (runReconciliation sapData rules).headroom.status = CovStatus.Warning) := by
  rw [run_headroom_testConditionActive] at hact
  constructor
  · intro hlev
    rw [run_headroom_leverageRatio, run_headroom_leverageThreshold] at hlev
    rw [run_headroom_status]
    unfold statusOf determineStatus
    rw [hact]
    simp [hlev]
  · intro hwarn hnbr hnint
    rw [run_headroom_leverageRatio, run_headroom_leverageThreshold] at hwarn hnbr
    rw [run_headroom_interestCoverageRatio, run_headroom_interestThreshold] at hnint
    rw [run_headroom_status]
    unfold statusOf determineStatus
    rw [hact]
    simp [hwarn, hnbr, hnint]

/-- Ledger input of the C3 witness: leverage 100 / 10 = 10 against the
default maximum 4. -/
def w3sap : List SAPEntry :=
  [{ id := "g1", accountCode := "2100", accountName := "Term loan", amount := 100,
     category := "Gross Debt" },
   { id := "v1", accountCode := "4000", accountName := "Product revenue", amount := 10,
     category := "Revenue" }]

/-- Witness for C3: active test, leverage 10 above the default maximum 4,
reported status is Breach. -/
theorem statusOrdering_witness :
    (runReconciliation w3sap emptyRules).headroom.status = CovStatus.Breach := by
  have hadj : adjustedEBITDAOf w3sap emptyRules = 10 := by
    unfold adjustedEBITDAOf fxResult fxStep stAfterAddBacks baselineState
    norm_num [hasFXExclusionOf, emptyRules, operatingProfitOf,
      show revenueEntriesOf w3sap =
        [⟨"v1", "4000", "Product revenue", 10, "Revenue"⟩] from rfl,
      show opexEntriesOf w3sap = ([] : List SAPEntry) from rfl]
  have hnet : netDebtOf w3sap = 100 := by
    norm_num [netDebtOf, debtTotalOf, cashTotalOf,
      show grossDebtEntriesOf w3sap =
        [⟨"g1", "2100", "Term loan", 100, "Gross Debt"⟩] from rfl,
      show leaseEntriesOf w3sap = ([] : List SAPEntry) from rfl,
      show cashEntriesOf w3sap = ([] : List SAPEntry) from rfl]
  refine (statusOrdering w3sap emptyRules (by decide)).1 ?_
  rw [run_headroom_leverageRatio, run_headroom_leverageThreshold]
  rw [show levMaxOf emptyRules = 4 from rfl]
  unfold leverageRatioOf
  rw [hadj, hnet]
  norm_num

/-- C6: with a springing trigger whose utilization does not exceed the
threshold the status is Skipped while both ratios are still computed by
their usual formulas, and with no trigger at all the test condition is
unconditionally active. -/
theorem springingSkip (sapData : List SAPEntry) (rules : CovenantRules) :
    (∀ trig, rules.covenantTrigger = some trig → trig.isSpringing = true →
      rcfUtilization (grossDebtEntriesOf sapData) trig ≤ springThreshold trig →
      (runReconciliation sapData rules).headroom.status = CovStatus.Skipped ∧
      (runReconciliation sapData rules).headroom.testConditionActive = false ∧
      (runReconciliation sapData rules).headroom.leverageRatio = leverageRatioOf sapData rules ∧
      (runReconciliation sapData rules).headroom.interestCoverageRatio =
        interestCoverageRatioOf sapData rules) ∧
    (rules.covenantTrigger = none →
      (runReconciliation sapData rules).headroom.testConditionActive = true) := by
  constructor
  · intro trig htrig hspring hle
    have hact : (springingOf sapData rules).1 = false := by
      unfold springingOf resolveSpringing
      rw [htrig]
      simp only [hspring, if_true]
      exact decide_eq_false (not_lt.mpr hle)
    refine ⟨?_, ?_, rfl, rfl⟩
    · rw [run_headroom_status]
      unfold statusOf determineStatus
      rw [hact]
      simp
    · rw [run_headroom_testConditionActive]
      exact hact
  · intro hnone
    rw [run_headroom_testConditionActive]
    unfold springingOf resolveSpringing
    rw [hnone]

/-- Springing trigger with no RCF capacity, for the C6 witness. -/
def w6rules : CovenantRules :=
  { financialCovenants := []
    ebitdaRules := { startingPoint := "", permittedAddBacks := [] }
    covenantTrigger := some { isSpringing := true } }

/-- Witness for C6: utilization 0 at threshold 0.4 skips the test; absent
trigger activates it. -/
theorem springingSkip_witness :
    (runReconciliation [] w6rules).headroom.status = CovStatus.Skipped ∧
    (runReconciliation [] emptyRules).headroom.testConditionActive = true := by
  constructor
  · exact ((springingSkip [] w6rules).1 { isSpringing := true } rfl rfl
      (by norm_num [rcfUtilization, springThreshold, ratFalsyOr, grossDebtEntriesOf])).1
  · exact (springingSkip [] emptyRules).2 rfl

/-- C9: falsy limits behave like absent ones — a found leverage covenant
with maxLimit 0 or null yields the default threshold 4.0, a springing
trigger with thresholdPercentage 0 (or absent) uses the default 0.40, and
totalRcfAmount 0 (or absent) yields utilization 0 and capacity 0. -/
theorem falsyThresholdDefaults (sapData : List SAPEntry) (rules : CovenantRules) :
    (∀ c, levRuleOf rules = some c → (c.maxLimit = none ∨ c.maxLimit = some 0) →
      (runReconciliation sapData rules).headroom.leverageThreshold = 4) ∧
    (∀ trig, rules.covenantTrigger = some trig → trig.isSpringing = true →
      ((trig.thresholdPercentage = none ∨ trig.thresholdPercentage = some 0) →
        ((runReconciliation sapData rules).headroom.triggerDetails).map (fun td => td.threshold) =
          some (2 / 5)) ∧
      ((trig.totalRcfAmount = none ∨ trig.totalRcfAmount = some 0) →
        ((runReconciliation sapData rules).headroom.triggerDetails).map
            (fun td => (td.currentValue, td.capacity)) = some (0, 0))) := by
  constructor
  · intro c hc hmax
    rw [run_headroom_leverageThreshold]
    unfold levMaxOf
    rw [hc]
    rcases hmax with h | h <;> simp [h, ratFalsyOr]
  · intro trig htrig hspring
    have hdetails : (springingOf sapData rules).2 =
        some ⟨strOrElse trig.triggerMetric "RCF Drawings / Total RCF Commitments",
          rcfUtilization (grossDebtEntriesOf sapData) trig, springThreshold trig,
          ratFalsyOr trig.totalRcfAmount 0⟩ := by
      unfold springingOf resolveSpringing
      rw [htrig]
      simp only [hspring, if_true]
    constructor
    · intro hthr
      rw [run_headroom_triggerDetails, hdetails]
      rcases hthr with h | h <;> simp [springThreshold, h, ratFalsyOr]
    · intro hrcf
      rw [run_headroom_triggerDetails, hdetails]
      rcases hrcf with h | h <;> simp [rcfUtilization, h, ratFalsyOr, lt_irrefl]

/-- Rules with all-falsy limits, for the C9 witness. -/
def w9rules : CovenantRules :=
  { financialCovenants := [{ name := "Leverage Ratio", maxLimit := some 0 }]
    ebitdaRules := { startingPoint := "", permittedAddBacks := [] }
    covenantTrigger :=
      some { isSpringing := true, thresholdPercentage := some 0, totalRcfAmount := some 0 } }

/-- Witness for C9: zero maxLimit, zero threshold percentage and zero RCF
capacity all fall back to their defaults. -/
theorem falsyThresholdDefaults_witness :
    (runReconciliation [] w9rules).headroom.leverageThreshold = 4 ∧
    ((runReconciliation [] w9rules).headroom.triggerDetails).map (fun td => td.threshold) =
      some (2 / 5) ∧
    ((runReconciliation [] w9rules).headroom.triggerDetails).map
      (fun td => (td.currentValue, td.capacity)) = some (0, 0) := by
  refine ⟨(falsyThresholdDefaults [] w9rules).1 { name := "Leverage Ratio", maxLimit := some 0 }
      (by decide) (Or.inr rfl), ?_, ?_⟩
  · exact (((falsyThresholdDefaults [] w9rules).2
      { isSpringing := true, thresholdPercentage := some 0, totalRcfAmount := some 0 }
      (by decide) rfl).1 (Or.inr rfl))
  · exact (((falsyThresholdDefaults [] w9rules).2
      { isSpringing := true, thresholdPercentage := some 0, totalRcfAmount := some 0 }
      (by decide) rfl).2 (Or.inr rfl))

/-- FX step with no unconsumed FX entries: nothing happens. -/
theorem fxStep_empty (sapData : List SAPEntry) (st : LoopState)
    (he : (fxEntriesOf sapData st).isEmpty = true) :
    fxStep sapData true st = (st, 0) := by
  unfold fxStep
  dsimp only
  rw [if_pos rfl, if_pos he]

/-- FX step on a strictly positive net FX sum: ids consumed, deduction
line emitted, EBITDA reduced, subtotal returned. -/
theorem fxStep_pos (sapData : List SAPEntry) (st : LoopState)
    (hne : (fxEntriesOf sapData st).isEmpty = false)
    (hpos : 0 < ((fxEntriesOf sapData st).map fun e => e.amount).sum) :
    fxStep sapData true st =
      ({ st with
          usedSapIds := st.usedSapIds ++ (fxEntriesOf sapData st).map fun e => e.id
          reconciliation := st.reconciliation ++
            [fxGainLine (fxEntriesOf sapData st)
              (((fxEntriesOf sapData st).map fun e => e.amount).sum)]
          runningEBITDA := st.runningEBITDA -
            ((fxEntriesOf sapData st).map fun e => e.amount).sum },
        ((fxEntriesOf sapData st).map fun e => e.amount).sum) := by
  unfold fxStep
  dsimp only
  rw [if_pos rfl, hne]
  simp only [Bool.false_eq_true, if_false]
  rw [if_pos hpos]

/-- FX step on a nonpositive net FX sum: ids are still consumed but no
line is emitted, EBITDA and subtotal untouched. -/
theorem fxStep_nonpos (sapData : List SAPEntry) (st : LoopState)
    (hne : (fxEntriesOf sapData st).isEmpty = false)
    (hle : ((fxEntriesOf sapData st).map fun e => e.amount).sum ≤ 0) :
    fxStep sapData true st =
      ({ st with
          usedSapIds := st.usedSapIds ++ (fxEntriesOf sapData st).map fun e => e.id }, 0) := by
  unfold fxStep
  dsimp only
  rw [if_pos rfl, hne]
  simp only [Bool.false_eq_true, if_false]
  rw [if_neg (not_lt.mpr hle)]

/-- C5: when the exclusions mention FX, a strictly positive signed sum of
the unconsumed FX entries yields a deduction line of minus that sum, the
sum subtracted from running EBITDA and recorded as the unrealized-FX
subtotal; a nonpositive sum (a net FX loss, or no FX entries) yields no
FX line, an unchanged EBITDA and a zero subtotal. -/
theorem fxExclusionStep (sapData : List SAPEntry) (rules : CovenantRules)
    (hfx : hasFXExclusionOf rules = true) :
    (0 < ((fxEntriesOf sapData (stAfterAddBacks sapData rules)).map fun e => e.amount).sum →
      (runReconciliation sapData rules).reconciliation =
        (stAfterAddBacks sapData rules).reconciliation ++
          [fxGainLine (fxEntriesOf sapData (stAfterAddBacks sapData rules))
            (((fxEntriesOf sapData (stAfterAddBacks sapData rules)).map fun e => e.amount).sum)] ++
          [financeCostsLine sapData, financeIncomeLine sapData, grossBorrowingsLine sapData,
            cashLine sapData] ∧
      (runReconciliation sapData rules).health.adjustedEBITDA =
        (stAfterAddBacks sapData rules).runningEBITDA -
          ((fxEntriesOf sapData (stAfterAddBacks sapData rules)).map fun e => e.amount).sum ∧
      (runReconciliation sapData rules).health.unrealizedFX =
        ((fxEntriesOf sapData (stAfterAddBacks sapData rules)).map fun e => e.amount).sum) ∧
    (((fxEntriesOf sapData (stAfterAddBacks sapData rules)).map fun e => e.amount).sum ≤ 0 →
      (runReconciliation sapData rules).reconciliation =
        (stAfterAddBacks sapData rules).reconciliation ++
          [financeCostsLine sapData, financeIncomeLine sapData, grossBorrowingsLine sapData,
            cashLine sapData] ∧
      (runReconciliation sapData rules).health.adjustedEBITDA =
        (stAfterAddBacks sapData rules).runningEBITDA ∧
      (runReconciliation sapData rules).health.unrealizedFX = 0) := by
  constructor
  · intro hpos
    have hne : (fxEntriesOf sapData (stAfterAddBacks sapData rules)).isEmpty = false := by
      cases he : (fxEntriesOf sapData (stAfterAddBacks sapData rules)).isEmpty
      · rfl
      · rw [List.isEmpty_iff] at he
        rw [he] at hpos
        simp at hpos
    have hres : fxResult sapData rules =
        ({ stAfterAddBacks sapData rules with
            usedSapIds := (stAfterAddBacks sapData rules).usedSapIds ++
              (fxEntriesOf sapData (stAfterAddBacks sapData rules)).map fun e => e.id
            reconciliation := (stAfterAddBacks sapData rules).reconciliation ++
              [fxGainLine (fxEntriesOf sapData (stAfterAddBacks sapData rules))
                (((fxEntriesOf sapData (stAfterAddBacks sapData rules)).map fun e => e.amount).sum)]
            runningEBITDA := (stAfterAddBacks sapData rules).runningEBITDA -
              ((fxEntriesOf sapData (stAfterAddBacks sapData rules)).map fun e => e.amount).sum },
          ((fxEntriesOf sapData (stAfterAddBacks sapData rules)).map fun e => e.amount).sum) := by
      unfold fxResult
      rw [hfx]
      exact fxStep_pos sapData (stAfterAddBacks sapData rules) hne hpos
    refine ⟨?_, ?_, ?_⟩
    · rw [run_reconciliation_eq, hres]
    · rw [run_health_adjustedEBITDA]
      unfold adjustedEBITDAOf
      rw [hres]
    · rw [run_health_unrealizedFX, hres]
  · intro hle
    cases he : (fxEntriesOf sapData (stAfterAddBacks sapData rules)).isEmpty with
    | true =>
      have hres : fxResult sapData rules = (stAfterAddBacks sapData rules, 0) := by
        unfold fxResult
        rw [hfx]
        exact fxStep_empty sapData (stAfterAddBacks sapData rules) he
      refine ⟨?_, ?_, ?_⟩
      · rw [run_reconciliation_eq, hres]
      · rw [run_health_adjustedEBITDA]
        unfold adjustedEBITDAOf
        rw [hres]
      · rw [run_health_unrealizedFX, hres]
    | false =>
      have hres : fxResult sapData rules =
          ({ stAfterAddBacks sapData rules with
              usedSapIds := (stAfterAddBacks sapData rules).usedSapIds ++
                (fxEntriesOf sapData (stAfterAddBacks sapData rules)).map fun e => e.id }, 0) := by
        unfold fxResult
        rw [hfx]
        exact fxStep_nonpos sapData (stAfterAddBacks sapData rules) he hle
      refine ⟨?_, ?_, ?_⟩
      · rw [run_reconciliation_eq, hres]
      · rw [run_health_adjustedEBITDA]
        unfold adjustedEBITDAOf
        rw [hres]
      · rw [run_health_unrealizedFX, hres]

/-- Ledger input of the C5 witness: one FX gain entry of 5. -/
def w5sap : List SAPEntry :=
  [{ id := "f1", accountCode := "8000", accountName := "FX revaluation", amount := 5,
     category := "FX" }]

/-- Rules with an FX exclusion, for the C5 witness. -/
def w5rules : CovenantRules :=
  { financialCovenants := []
    ebitdaRules :=
      { startingPoint := ""
        permittedAddBacks := []
        exclusions := some ["Unrealized FX gains"] } }

/-- Witness for C5: the net gain of 5 is recorded and deducted. -/
theorem fxExclusionStep_witness :
    (runReconciliation w5sap w5rules).health.unrealizedFX = 5 ∧
    (runReconciliation w5sap w5rules).health.adjustedEBITDA =
      (stAfterAddBacks w5sap w5rules).runningEBITDA - 5 := by
  have hsum : ((fxEntriesOf w5sap (stAfterAddBacks w5sap w5rules)).map fun e => e.amount).sum = 5 := by
    rw [show fxEntriesOf w5sap (stAfterAddBacks w5sap w5rules) = w5sap from rfl]
    norm_num [w5sap]
  have h := (fxExclusionStep w5sap w5rules (by decide)).1 (by rw [hsum]; norm_num)
  exact ⟨by rw [h.2.2, hsum], by rw [h.2.1, hsum]⟩

/-- Two bridge lines share no source entry. -/
def SourcesDisjoint (l1 l2 : ReconciliationItem) : Prop :=
  ∀ e, e ∈ l1.sapSources → e ∉ l2.sapSources

/-- Loop invariant for conservation: every emitted line's source ids are
already consumed, and the emitted lines are pairwise source-disjoint. -/
def UsedInv (st : LoopState) : Prop :=
  (∀ l ∈ st.reconciliation, ∀ e ∈ l.sapSources, e.id ∈ st.usedSapIds) ∧
  List.Pairwise SourcesDisjoint st.reconciliation

/-- Membership in the matching-entry filter unpacks to: ledger member,
targeted category, id not yet consumed. -/
theorem mem_matchingEntries (sapData : List SAPEntry) (used : List String)
    (rule : EBITDAAddBack) (e : SAPEntry) (he : e ∈ matchingEntriesOf sapData used rule) :
    e ∈ sapData ∧ e.category ∈ mapRuleToSAPCategory rule.item ∧ e.id ∉ used := by
  unfold matchingEntriesOf at he
  rw [List.mem_filter] at he
  obtain ⟨hmem, hcond⟩ := he
  rw [Bool.and_eq_true] at hcond
  obtain ⟨hcat, hnotused⟩ := hcond
  refine ⟨hmem, by simpa using hcat, ?_⟩
  intro habs
  have : used.contains e.id = true := by simpa using habs
  rw [this] at hnotused
  simp at hnotused

/-- Membership in the FX-entry filter unpacks analogously. -/
theorem mem_fxEntries (sapData : List SAPEntry) (st : LoopState) (e : SAPEntry)
    (he : e ∈ fxEntriesOf sapData st) :
    e ∈ sapData ∧ e.category = "FX" ∧ e.id ∉ st.usedSapIds := by
  unfold fxEntriesOf at he
  rw [List.mem_filter] at he
  obtain ⟨hmem, hcond⟩ := he
  rw [Bool.and_eq_true] at hcond
  obtain ⟨hcat, hnotused⟩ := hcond
  refine ⟨hmem, eq_of_beq hcat, ?_⟩
  intro habs
  have : st.usedSapIds.contains e.id = true := by simpa using habs
  rw [this] at hnotused
  simp at hnotused

/-- Appending a line whose sources were unconsumed, while consuming their
ids, preserves the conservation invariant. -/
theorem usedInv_extend (st st' : LoopState) (item : ReconciliationItem)
    (h : UsedInv st)
    (hrecon : st'.reconciliation = st.reconciliation ++ [item])
    (hused : st'.usedSapIds = st.usedSapIds ++ item.sapSources.map fun e => e.id)
    (hnew : ∀ e ∈ item.sapSources, e.id ∉ st.usedSapIds) :
    UsedInv st' := by
  constructor
  · intro l hl e he
    rw [hrecon] at hl
    rw [hused]
    rcases List.mem_append.mp hl with hold | hnewl
    · exact List.mem_append.mpr (Or.inl (h.1 l hold e he))
    · rw [List.mem_singleton] at hnewl
      subst hnewl
      exact List.mem_append.mpr (Or.inr (List.mem_map.mpr ⟨e, he, rfl⟩))
  · rw [hrecon, List.pairwise_append]
    refine ⟨h.2, List.pairwise_singleton _ _, ?_⟩
    intro a ha b hb
    rw [List.mem_singleton] at hb
    subst hb
    intro e hea heb
    exact hnew e heb (h.1 a ha e hea)

/-- One add-back iteration preserves the conservation invariant. -/
theorem processAddBack_usedInv (sapData : List SAPEntry) (op : Rat) (st : LoopState)
    (rule : EBITDAAddBack) (h : UsedInv st) :
    UsedInv (processAddBack sapData op st rule) := by
  have hnew : ∀ e ∈ matchingEntriesOf sapData st.usedSapIds rule, e.id ∉ st.usedSapIds :=
    fun e he => (mem_matchingEntries sapData st.usedSapIds rule e he).2.2
  unfold processAddBack
  dsimp only
  split
  · exact h
  · repeat' split
    all_goals exact usedInv_extend st _ _ h rfl rfl hnew

/-- The whole add-back loop preserves the conservation invariant. -/
theorem foldl_usedInv (sapData : List SAPEntry) (op : Rat) :
    ∀ (rs : List EBITDAAddBack) (st : LoopState), UsedInv st →
      UsedInv (rs.foldl (processAddBack sapData op) st) := by
  intro rs
  induction rs with
  | nil => exact fun st h => h
  | cons r rest ih =>
    intro st h
    exact ih _ (processAddBack_usedInv sapData op st r h)

/-- The baseline state (starting line, Revenue and OpEx ids consumed)
satisfies the conservation invariant. -/
theorem baseline_usedInv (sapData : List SAPEntry) (rules : CovenantRules) :
    UsedInv (baselineState sapData rules) := by
  constructor
  · intro l hl e he
    rw [show (baselineState sapData rules).reconciliation = [startingLine sapData rules] from rfl,
      List.mem_singleton] at hl
    subst hl
    rcases List.mem_append.mp he with h1 | h2
    · exact List.mem_append.mpr (Or.inl (List.mem_map.mpr ⟨e, h1, rfl⟩))
    · exact List.mem_append.mpr (Or.inr (List.mem_map.mpr ⟨e, h2, rfl⟩))
  · exact List.pairwise_singleton _ _

/-- The FX step preserves the conservation invariant. -/
theorem fxStep_usedInv (sapData : List SAPEntry) (b : Bool) (st : LoopState)
    (h : UsedInv st) : UsedInv (fxStep sapData b st).1 := by
  unfold fxStep
  dsimp only
  split
  · split
    · exact h
    · split
      · exact usedInv_extend st _ _ h rfl rfl
          (fun e he => (mem_fxEntries sapData st e he).2.2)
      · constructor
        · intro l hl e he
          exact List.mem_append.mpr (Or.inl (h.1 l hl e he))
        · exact h.2
  · exact h

/-- The categories that can appear in sources of EBITDA-section lines. -/
def ebitdaCats : List String :=
  ["Revenue", "OpEx", "D&A", "Transaction", "Restructuring", "FX"]

/-- Category invariant: sources of emitted EBITDA-section lines carry
EBITDA-section categories only. -/
def CatInv (st : LoopState) : Prop :=
  ∀ l ∈ st.reconciliation, ∀ e ∈ l.sapSources, e.category ∈ ebitdaCats

/-- The classifier only ever returns the four add-back categories. -/
theorem mapRule_codomain (name : String) (c : String) (hc : c ∈ mapRuleToSAPCategory name) :
    c ∈ ebitdaCats := by
  unfold mapRuleToSAPCategory at hc
  dsimp only at hc
  split_ifs at hc <;>
    first
      | (rw [List.mem_singleton] at hc; subst hc; decide)
      | exact absurd hc (List.not_mem_nil c)

/-- An entry of a category filter has that category. -/
theorem mem_filter_category (sapData : List SAPEntry) (cat : String) (e : SAPEntry)
    (he : e ∈ sapData.filter fun i => i.category == cat) : e.category = cat := by
  rw [List.mem_filter] at he
  exact eq_of_beq he.2

/-- Appending a line with EBITDA-section sources preserves the category
invariant. -/
theorem catInv_extend (st st' : LoopState) (item : ReconciliationItem)
    (h : CatInv st)
    (hrecon : st'.reconciliation = st.reconciliation ++ [item])
    (hnew : ∀ e ∈ item.sapSources, e.category ∈ ebitdaCats) :
    CatInv st' := by
  intro l hl e he
  rw [hrecon] at hl
  rcases List.mem_append.mp hl with hold | hnewl
  · exact h l hold e he
  · rw [List.mem_singleton] at hnewl
    subst hnewl
    exact hnew e he

/-- One add-back iteration preserves the category invariant. -/
theorem processAddBack_catInv (sapData : List SAPEntry) (op : Rat) (st : LoopState)
    (rule : EBITDAAddBack) (h : CatInv st) :
    CatInv (processAddBack sapData op st rule) := by
  have hnew : ∀ e ∈ matchingEntriesOf sapData st.usedSapIds rule, e.category ∈ ebitdaCats :=
    fun e he =>
      mapRule_codomain rule.item e.category (mem_matchingEntries sapData st.usedSapIds rule e he).2.1
  unfold processAddBack
  dsimp only
  split
  · exact h
  · repeat' split
    all_goals exact catInv_extend st _ _ h rfl hnew

/-- The whole add-back loop preserves the category invariant. -/
theorem foldl_catInv (sapData : List SAPEntry) (op : Rat) :
    ∀ (rs : List EBITDAAddBack) (st : LoopState), CatInv st →
      CatInv (rs.foldl (processAddBack sapData op) st) := by
  intro rs
  induction rs with
  | nil => exact fun st h => h
  | cons r rest ih =>
    intro st h
    exact ih _ (processAddBack_catInv sapData op st r h)

/-- The baseline state satisfies the category invariant. -/
theorem baseline_catInv (sapData : List SAPEntry) (rules : CovenantRules) :
    CatInv (baselineState sapData rules) := by
  intro l hl e he
  rw [show (baselineState sapData rules).reconciliation = [startingLine sapData rules] from rfl,
    List.mem_singleton] at hl
  subst hl
  rcases List.mem_append.mp he with h1 | h2
  · rw [mem_filter_category sapData "Revenue" e h1]
    decide
  · rw [mem_filter_category sapData "OpEx" e h2]
    decide

/-- The FX step preserves the category invariant. -/
theorem fxStep_catInv (sapData : List SAPEntry) (b : Bool) (st : LoopState)
    (h : CatInv st) : CatInv (fxStep sapData b st).1 := by
  unfold fxStep
  dsimp only
  split
  · split
    · exact h
    · split
      · apply catInv_extend st _ _ h rfl
        intro e he
        rw [(mem_fxEntries sapData st e he).2.1]
        decide
      · exact h
  · exact h

/-- Lines whose source categories live in disjoint category sets share no
source entry. -/
theorem disjoint_by_category (l1 l2 : ReconciliationItem) (cats1 cats2 : List String)
    (h1 : ∀ e ∈ l1.sapSources, e.category ∈ cats1)
    (h2 : ∀ e ∈ l2.sapSources, e.category ∈ cats2)
    (hd : ∀ c ∈ cats1, c ∉ cats2) :
    SourcesDisjoint l1 l2 := by
  intro e he1 he2
  exact hd e.category (h1 e he1) (h2 e he2)

/-- Sources of the finance-costs line are interest-expense entries. -/
theorem financeCostsLine_cats (sapData : List SAPEntry) :
    ∀ e ∈ (financeCostsLine sapData).sapSources, e.category ∈ ["Interest Expense"] := by
  intro e he
  rw [List.mem_singleton]
  exact mem_filter_category sapData "Interest Expense" e he

/-- Sources of the finance-income line are interest-income entries. -/
theorem financeIncomeLine_cats (sapData : List SAPEntry) :
    ∀ e ∈ (financeIncomeLine sapData).sapSources, e.category ∈ ["Interest Income"] := by
  intro e he
  rw [List.mem_singleton]
  exact mem_filter_category sapData "Interest Income" e he

/-- Sources of the gross-borrowings line are debt or lease entries. -/
theorem grossBorrowingsLine_cats (sapData : List SAPEntry) :
    ∀ e ∈ (grossBorrowingsLine sapData).sapSources, e.category ∈ ["Gross Debt", "Leases"] := by
  intro e he
  rcases List.mem_append.mp he with h1 | h2
  · rw [mem_filter_category sapData "Gross Debt" e h1]
    decide
  · rw [mem_filter_category sapData "Leases" e h2]
    decide

/-- Sources of the cash line are cash entries. -/
theorem cashLine_cats (sapData : List SAPEntry) :
    ∀ e ∈ (cashLine sapData).sapSources, e.category ∈ ["Cash"] := by
  intro e he
  rw [List.mem_singleton]
  exact mem_filter_category sapData "Cash" e he

/-- C8: conservation of ledger entries — in every engine output, no ledger
entry occurs in the sapSources of two different bridge lines. -/
theorem entryConservation (sapData : List SAPEntry) (rules : CovenantRules) :
    List.Pairwise SourcesDisjoint (runReconciliation sapData rules).reconciliation := by
  have husedInv : UsedInv (fxResult sapData rules).1 := by
    unfold fxResult
    apply fxStep_usedInv
    unfold stAfterAddBacks
    exact foldl_usedInv sapData (operatingProfitOf sapData) _ _
      (baseline_usedInv sapData rules)
  have hcatInv : CatInv (fxResult sapData rules).1 := by
    unfold fxResult
    apply fxStep_catInv
    unfold stAfterAddBacks
    exact foldl_catInv sapData (operatingProfitOf sapData) _ _
      (baseline_catInv sapData rules)
  rw [run_reconciliation_eq, List.pairwise_append]
  refine ⟨husedInv.2, ?_, ?_⟩
  · refine List.Pairwise.cons ?_ (List.Pairwise.cons ?_ (List.Pairwise.cons ?_
      (List.pairwise_singleton _ _)))
    · intro b hb
      simp only [List.mem_cons, List.mem_singleton, List.not_mem_nil, or_false] at hb
      rcases hb with hb | hb | hb
      · subst hb
        exact disjoint_by_category _ _ ["Interest Expense"] ["Interest Income"]
          (financeCostsLine_cats sapData) (financeIncomeLine_cats sapData) (by decide)
      · subst hb
        exact disjoint_by_category _ _ ["Interest Expense"] ["Gross Debt", "Leases"]
          (financeCostsLine_cats sapData) (grossBorrowingsLine_cats sapData) (by decide)
      · subst hb
        exact disjoint_by_category _ _ ["Interest Expense"] ["Cash"]
          (financeCostsLine_cats sapData) (cashLine_cats sapData) (by decide)
    · intro b hb
      simp only [List.mem_cons, List.mem_singleton, List.not_mem_nil, or_false] at hb
      rcases hb with hb | hb
      · subst hb
        exact disjoint_by_category _ _ ["Interest Income"] ["Gross Debt", "Leases"]
          (financeIncomeLine_cats sapData) (grossBorrowingsLine_cats sapData) (by decide)
      · subst hb
        exact disjoint_by_category _ _ ["Interest Income"] ["Cash"]
          (financeIncomeLine_cats sapData) (cashLine_cats sapData) (by decide)
    · intro b hb
      simp only [List.mem_singleton, List.mem_cons, List.not_mem_nil, or_false] at hb
      subst hb
      exact disjoint_by_category _ _ ["Gross Debt", "Leases"] ["Cash"]
        (grossBorrowingsLine_cats sapData) (cashLine_cats sapData) (by decide)
  · intro a ha b hb
    have hacats : ∀ e ∈ a.sapSources, e.category ∈ ebitdaCats :=
      fun e he => hcatInv a ha e he
    simp only [List.mem_cons, List.mem_singleton, List.not_mem_nil, or_false] at hb
    rcases hb with hb | hb | hb | hb
    · subst hb
      exact disjoint_by_category _ _ ebitdaCats ["Interest Expense"]
        hacats (financeCostsLine_cats sapData) (by decide)
    · subst hb
      exact disjoint_by_category _ _ ebitdaCats ["Interest Income"]
        hacats (financeIncomeLine_cats sapData) (by decide)
    · subst hb
      exact disjoint_by_category _ _ ebitdaCats ["Gross Debt", "Leases"]
        hacats (grossBorrowingsLine_cats sapData) (by decide)
    · subst hb
      exact disjoint_by_category _ _ ebitdaCats ["Cash"]
        hacats (cashLine_cats sapData) (by decide)

/-- The amended sign convention for a single bridge line: an uncapped
add-back line is nonnegative, and a deduction line other than the cash
line is nonpositive. -/
def SignOK (l : ReconciliationItem) : Prop :=
  (l.isAddBack = true → l.cappedAmount = none → 0 ≤ l.finalAmount) ∧
  (l.isDeduction = true → l.lmaItem ≠ "(-) Cash & Cash Equivalents" → l.finalAmount ≤ 0)

/-- One add-back iteration preserves the amended sign convention. -/
theorem processAddBack_signOK (sapData : List SAPEntry) (op : Rat) (st : LoopState)
    (rule : EBITDAAddBack) (h : ∀ l ∈ st.reconciliation, SignOK l) :
    ∀ l ∈ (processAddBack sapData op st rule).reconciliation, SignOK l := by
  unfold processAddBack
  dsimp only
  split
  · exact h
  · repeat' split
    all_goals
      intro l hl
      rcases List.mem_append.mp hl with hold | hnew
      · exact h l hold
      · rw [List.mem_singleton] at hnew
        subst hnew
        refine ⟨?_, ?_⟩
        · intro _ hcap
          simp only [addBackItem] at hcap ⊢
          first
            | exact Option.noConfusion hcap
            | exact rawAmountOf_nonneg (matchingEntriesOf sapData st.usedSapIds rule)
        · intro hded _
          simp [addBackItem] at hded

/-- The whole add-back loop preserves the amended sign convention. -/
theorem foldl_signOK (sapData : List SAPEntry) (op : Rat) :
    ∀ (rs : List EBITDAAddBack) (st : LoopState),
      (∀ l ∈ st.reconciliation, SignOK l) →
      ∀ l ∈ (rs.foldl (processAddBack sapData op) st).reconciliation, SignOK l := by
  intro rs
  induction rs with
  | nil => exact fun st h => h
  | cons r rest ih =>
    intro st h
    exact ih _ (processAddBack_signOK sapData op st r h)

/-- The starting line satisfies the amended sign convention vacuously. -/
theorem baseline_signOK (sapData : List SAPEntry) (rules : CovenantRules) :
    ∀ l ∈ (baselineState sapData rules).reconciliation, SignOK l := by
  intro l hl
  rw [show (baselineState sapData rules).reconciliation = [startingLine sapData rules] from rfl,
    List.mem_singleton] at hl
  subst hl
  constructor
  · intro hadd
    simp [startingLine] at hadd
  · intro hded
    simp [startingLine] at hded

/-- The FX step preserves the amended sign convention: its deduction line
is emitted only for a strictly positive net gain. -/
theorem fxStep_signOK (sapData : List SAPEntry) (b : Bool) (st : LoopState)
    (h : ∀ l ∈ st.reconciliation, SignOK l) :
    ∀ l ∈ (fxStep sapData b st).1.reconciliation, SignOK l := by
  unfold fxStep
  dsimp only
  split
  · split
    · exact h
    · split
      next hpos =>
        intro l hl
        rcases List.mem_append.mp hl with hold | hnew
        · exact h l hold
        · rw [List.mem_singleton] at hnew
          subst hnew
          constructor
          · intro hadd _
            simp [fxGainLine] at hadd
          · intro _ _
            simpa [fxGainLine] using neg_nonpos.mpr (le_of_lt hpos)
      · exact h
  · exact h

/-- C2 (amended): every emitted add-back line that was not capped has a
nonnegative finalAmount, and every deduction line other than the cash line
has a nonpositive finalAmount; a percentage cap against a negative cap
base and a negative signed cash total are the two ways the full sign
convention fails (see the counterexample). -/
theorem signConvention (sapData : List SAPEntry) (rules : CovenantRules) :
    ∀ l ∈ (runReconciliation sapData rules).reconciliation,
      (l.isAddBack = true → l.cappedAmount = none → 0 ≤ l.finalAmount) ∧
      (l.isDeduction = true → l.lmaItem ≠ "(-) Cash & Cash Equivalents" → l.finalAmount ≤ 0) := by
  have hloop : ∀ l ∈ (fxResult sapData rules).1.reconciliation, SignOK l := by
    unfold fxResult
    apply fxStep_signOK
    unfold stAfterAddBacks
    exact foldl_signOK sapData (operatingProfitOf sapData) _ _
      (baseline_signOK sapData rules)
  rw [run_reconciliation_eq]
  intro l hl
  rcases List.mem_append.mp hl with h1 | h2
  · exact hloop l h1
  · simp only [List.mem_cons, List.mem_singleton, List.not_mem_nil, or_false] at h2
    rcases h2 with h | h | h | h <;> subst h
    · exact ⟨fun hadd _ => by simp [financeCostsLine] at hadd,
        fun hded _ => by simp [financeCostsLine] at hded⟩
    · refine ⟨fun hadd _ => by simp [financeIncomeLine] at hadd, fun _ _ => ?_⟩
      show -interestIncomeOf sapData ≤ 0
      exact neg_nonpos.mpr (rawAmountOf_nonneg (interestIncEntriesOf sapData))
    · exact ⟨fun hadd _ => by simp [grossBorrowingsLine] at hadd,
        fun hded _ => by simp [grossBorrowingsLine] at hded⟩
    · refine ⟨fun hadd _ => by simp [cashLine] at hadd, fun _ hne => ?_⟩
      exact absurd rfl hne

/-- Witness for C2 at a simple ledger: the finance-income deduction line is
in the output and its finalAmount is nonpositive. -/
theorem signConvention_witness :
    (financeIncomeLine w3sap).finalAmount ≤ 0 := by
  refine (signConvention w3sap emptyRules (financeIncomeLine w3sap) ?_).2 rfl ?_
  · rw [run_reconciliation_eq]
    exact List.mem_append.mpr (Or.inr (by simp))
  · decide

/-- Counterexample ledger for C2: operating profit is negative (pure OpEx)
and the cash balance is negative. -/
def c2sap : List SAPEntry :=
  [⟨"o1", "5000", "Staff costs", 100, "OpEx"⟩,
   ⟨"r1", "7000", "Severance", 10, "Restructuring"⟩,
   ⟨"c1", "1000", "Cash at bank", -50, "Cash"⟩]

/-- Counterexample add-back rule for C2: capped at 15 percent. -/
def c2rule : EBITDAAddBack :=
  { item := "Restructuring costs", legalLogic := "permitted", cap := some "15%" }

/-- Counterexample rules for C2. -/
def c2rules : CovenantRules :=
  { financialCovenants := []
    ebitdaRules :=
      { startingPoint := ""
        permittedAddBacks := [c2rule] } }

/-- The entries matched by the counterexample rule. -/
def c2m : List SAPEntry := [⟨"r1", "7000", "Severance", 10, "Restructuring"⟩]

/-- Evaluation of the add-back loop on the counterexample input: the cap
base is -100, so maxAllowed is -15 and the line is capped to -15. -/
theorem c2step :
    (stAfterAddBacks c2sap c2rules).reconciliation =
      (baselineState c2sap c2rules).reconciliation ++
        [addBackItem c2rule c2m 10 (some (-15)) (-15) "Capped at 15% of Base"] := by
  unfold stAfterAddBacks
  rw [show c2rules.ebitdaRules.permittedAddBacks = [c2rule] from rfl,
    List.foldl_cons, List.foldl_nil]
  unfold processAddBack
  dsimp only
  rw [show matchingEntriesOf c2sap (baselineState c2sap c2rules).usedSapIds c2rule = c2m from rfl]
  rw [show c2m.isEmpty = false from rfl]
  simp only [Bool.false_eq_true, if_false]
  rw [show hasCapIndicator c2rule.cap = true from rfl, if_pos rfl]
  have hrawv : rawAmountOf c2m = 10 := by norm_num [rawAmountOf, c2m]
  have hdna : (mapRuleToSAPCategory c2rule.item).contains "D&A" = false := by decide
  have hop : operatingProfitOf c2sap = -100 := by
    norm_num [operatingProfitOf,
      show revenueEntriesOf c2sap = [] from rfl,
      show opexEntriesOf c2sap = [⟨"o1", "5000", "Staff costs", 100, "OpEx"⟩] from rfl]
  have hpct : extractCapPercent (c2rule.cap.getD "") = 15 := by decide
  rw [hrawv, hdna, hop, hpct]
  simp only [Bool.false_eq_true, if_false]
  rw [show (baselineState c2sap c2rules).depreciationTotal = 0 from rfl]
  rw [if_pos (by norm_num)]
  rw [show ((-100 : Rat) + 0) * (((15 : Nat) : Rat) / 100) = -15 by norm_num]
  rfl

/-- No FX exclusion in the counterexample rules, so the FX step is the
identity. -/
theorem c2fxr : fxResult c2sap c2rules = (stAfterAddBacks c2sap c2rules, 0) := by
  unfold fxResult
  rw [show hasFXExclusionOf c2rules = false from rfl]
  unfold fxStep
  simp

/-- C2 counterexample: on this input the output contains an add-back line
(isAddBack = true) with negative finalAmount (capped against a negative
cap base), and a cash deduction line (isDeduction = true) with positive
finalAmount (negative signed cash total) — both halves of the claimed
sign invariant fail. -/
theorem signConvention_cex :
    addBackItem c2rule c2m 10 (some (-15)) (-15) "Capped at 15% of Base" ∈
        (runReconciliation c2sap c2rules).reconciliation ∧
    (addBackItem c2rule c2m 10 (some (-15)) (-15) "Capped at 15% of Base").isAddBack = true ∧
    (addBackItem c2rule c2m 10 (some (-15)) (-15) "Capped at 15% of Base").finalAmount < 0 ∧
    cashLine c2sap ∈ (runReconciliation c2sap c2rules).reconciliation ∧
    (cashLine c2sap).isDeduction = true ∧
    0 < (cashLine c2sap).finalAmount := by
  refine ⟨?_, rfl, by norm_num [addBackItem], ?_, rfl, ?_⟩
  · rw [run_reconciliation_eq, c2fxr]
    dsimp only
    rw [c2step]
    exact List.mem_append.mpr (Or.inl (List.mem_append.mpr (Or.inr (List.mem_singleton.mpr rfl))))
  · rw [run_reconciliation_eq]
    exact List.mem_append.mpr (Or.inr (by simp))
  · show 0 < -cashTotalOf c2sap
    norm_num [cashTotalOf,
      show cashEntriesOf c2sap = [⟨"c1", "1000", "Cash at bank", -50, "Cash"⟩] from rfl]
